import Mathlib

/-!
Shallow embedding of the tick ingestion and persistence pipeline of
`Kite_WebSocket.py`: the price-row store, the upsert operations, the
bootstrap populator, the adaptive batching policy, the delay statistics,
one iteration of the `database_worker` consumer loop, and the
reconnection supervision around `zerodha_on_error` and `main`.

Prices are modelled as exact rationals; timestamps and dates as rational
time codes (the `strftime` formatting of a datetime is modelled as the
identity on the code).  The single-threaded view of the unbounded FIFO
queue is a list whose length is `qsize()`.
-/

/-- A row of the `live_prices` table as created by `create_price_table`:
every column other than the primary key `symbol` is nullable. -/
structure Row where
  price : Option ℚ
  timestamp : Option ℚ
  trade_symbol : Option String
  strike_price : Option ℚ
  option_type : Option String
  source : Option String
  zerodha_price : Option ℚ
  zerodha_timestamp : Option ℚ
  instrument_token : Option ℕ
  expiry_date : Option ℚ
deriving DecidableEq

/-- A freshly inserted row before any column is assigned. -/
def Row.empty : Row :=
  ⟨none, none, none, none, none, none, none, none, none, none⟩

/-- The price table: a partial map from symbol (primary key) to row. -/
def Store := String → Option Row

/-- A freshly created (empty) price table. -/
def emptyStore : Store := fun _ => none

/-- Python `str.lower()`, applied characterwise (ASCII suffices for the
source strings involved). -/
def str_lower (s : String) : String := ⟨s.data.map Char.toLower⟩

/-- First-match association lookup, modelling Python `dict.get` on the
global mapping dictionaries. -/
def lookupA {α β : Type} [DecidableEq α] (k : α) : List (α × β) → Option β
  | [] => none
  | p :: t => if p.1 = k then some p.2 else lookupA k t

/-- Reverse lookup in `kite_instrument_mapping`: the first token whose
mapped symbol equals `sym` (the `for token, symbol ...: break` loop in
`populate_initial_instruments`). -/
def findToken (mapping : List (ℕ × String)) (sym : String) : Option ℕ :=
  (mapping.find? (fun p => decide (p.2 = sym))).map (fun p => p.1)

/-- One entry of `kite_instrument_details`, keyed by trading symbol. -/
structure InstDetails where
  strike : ℚ
  option_type : String
  expiry : ℚ
  trade_symbol : String
deriving DecidableEq

/-- The instrument directory and derived global maps, immutable while the
consumers run: `kite_instrument_details`, `kite_instrument_mapping`,
`spot_instrument_tokens` (whose values may be `None`),
`nearest_expiry_dates`, and the configured `trade_symbols` list. -/
structure Ctx where
  details : List (String × InstDetails)
  mapping : List (ℕ × String)
  spot_tokens : List (String × Option ℕ)
  nearest_expiry : List (String × ℚ)
  trade_symbols : List String

/-- `INSERT ... ON CONFLICT (symbol) DO UPDATE`: insert `ins` when no row
for `sym` exists, otherwise update the existing row with `upd`. -/
def upsertRow (st : Store) (sym : String) (ins : Row) (upd : Row → Row) : Store :=
  fun s =>
    if s = sym then some (match st sym with | none => ins | some r => upd r)
    else st s

/-- The derived best-price recompute applied to one row:
`SET price = zerodha_price, timestamp = zerodha_timestamp ... WHERE
symbol = %s AND zerodha_price IS NOT NULL`. -/
def deriveRow (r : Row) : Row :=
  if r.zerodha_price.isSome then
    { r with price := r.zerodha_price, timestamp := r.zerodha_timestamp }
  else r

/-- The derived best-price recompute statement for one symbol. -/
def deriveSym (st : Store) (sym : String) : Store :=
  fun s => if s = sym then (st sym).map deriveRow else st s

/-- `upsert_price` (`Kite_WebSocket.py` lines 379-459): write the
source-specific columns for one symbol, then unconditionally recompute the
derived columns.  `now` stands for `datetime.now()`.  The `strike_price`
and `option_type` parameters of the source function never reach the SQL
and are omitted.  The expiry prefers the entry mapped to the trading
symbol and falls back to `nearest_expiry_dates.get(trade_symbol)`. -/
def upsert_price (ctx : Ctx) (kite_symbol : String) (price : Option ℚ)
    (trade_symbol : Option String) (source : String)
    (kite_instrument_token : Option ℕ) (exchange_timestamp : Option ℚ)
    (now : ℚ) (st : Store) : Store :=
  let timestamp : ℚ := exchange_timestamp.getD now
  let symbol_expiry : Option ℚ :=
    (lookupA kite_symbol ctx.details).map (fun d => d.expiry)
  let expiry_date : Option ℚ :=
    symbol_expiry.orElse
      (fun _ => trade_symbol.bind (fun ts => lookupA ts ctx.nearest_expiry))
  let st1 :=
    if str_lower source = "zerodha" then
      upsertRow st kite_symbol
        { Row.empty with
          zerodha_price := price
          zerodha_timestamp := some timestamp
          instrument_token := kite_instrument_token
          expiry_date := expiry_date }
        (fun r =>
          { r with
            zerodha_price := price
            zerodha_timestamp := some timestamp
            instrument_token := kite_instrument_token
            expiry_date := expiry_date })
    else
      upsertRow st kite_symbol
        { Row.empty with
          price := price
          timestamp := some timestamp
          instrument_token := kite_instrument_token
          expiry_date := expiry_date }
        (fun r =>
          { r with
            price := price
            timestamp := some timestamp
            instrument_token := kite_instrument_token
            expiry_date := expiry_date })
  deriveSym st1 kite_symbol

/-- Result of a bulk upsert call, tracing its externally visible effects:
the final store, whether a fresh database connection was opened
(`conn is None` on entry and the empty-list early return not taken), how
many SQL row operations were executed, and whether `conn.commit()` ran. -/
structure BulkResult where
  store : Store
  openedConn : Bool
  sqlCount : ℕ
  committed : Bool

/-- One row operation of the bulk insert phase of `upsert_price_bulk`:
insert-or-update of the zerodha source columns and the per-symbol expiry. -/
def bulkInsertStep (acc : Store) (q : String × Option ℚ × ℚ × Option ℚ) : Store :=
  upsertRow acc q.1
    { Row.empty with
      zerodha_price := q.2.1
      zerodha_timestamp := some q.2.2.1
      expiry_date := q.2.2.2 }
    (fun r =>
      { r with
        zerodha_price := q.2.1
        zerodha_timestamp := some q.2.2.1
        expiry_date := q.2.2.2 })

/-- `upsert_price_bulk` (lines 461-535).  An empty symbol list returns
before any connection, SQL or commit.  For `source == "zerodha"` it runs
one multi-row insert/update of the zerodha columns followed by one
multi-row derived-column recompute, then commits; for any other source the
guarded block is skipped and only the commit runs.  The per-symbol expiry
is the exact expiry from `kite_instrument_details` when the symbol is
known there (otherwise both fallbacks yield null).  `conn_provided`
stands for `conn is not None`. -/
def upsert_price_bulk (ctx : Ctx) (kite_symbols : List String)
    (prices : List (Option ℚ)) (exchange_timestamps : List (Option ℚ))
    (source : String) (conn_provided : Bool) (now : ℚ) (st : Store) :
    BulkResult :=
  if kite_symbols.isEmpty then ⟨st, false, 0, false⟩
  else
    let timestamps : List ℚ := exchange_timestamps.map (fun e => e.getD now)
    let per_symbol_expiries : List (Option ℚ) :=
      kite_symbols.map (fun sym => (lookupA sym ctx.details).map (fun d => d.expiry))
    if str_lower source = "zerodha" then
      let bulk_data := kite_symbols.zip (prices.zip (timestamps.zip per_symbol_expiries))
      let st1 := bulk_data.foldl bulkInsertStep st
      let st2 := kite_symbols.foldl deriveSym st1
      ⟨st2, !conn_provided, bulk_data.length + kite_symbols.length, true⟩
    else
      ⟨st, !conn_provided, 0, true⟩

/-- `upsert_spot_price` (lines 537-597): writes the zerodha source columns
plus `trade_symbol` and `source`, with the nearest expiry of the index,
then recomputes the derived columns. -/
def upsert_spot_price (ctx : Ctx) (spot_symbol : String) (price : Option ℚ)
    (trade_symbol : String) (source : String) (exchange_timestamp : Option ℚ)
    (now : ℚ) (st : Store) : Store :=
  let timestamp : ℚ := exchange_timestamp.getD now
  let expiry_date : Option ℚ := lookupA trade_symbol ctx.nearest_expiry
  let st1 := upsertRow st spot_symbol
    { Row.empty with
      zerodha_price := price
      zerodha_timestamp := some timestamp
      trade_symbol := some trade_symbol
      source := some source
      expiry_date := expiry_date }
    (fun r =>
      { r with
        zerodha_price := price
        zerodha_timestamp := some timestamp
        trade_symbol := some trade_symbol
        source := some source
        expiry_date := expiry_date })
  deriveSym st1 spot_symbol

/-- One loop step of `populate_initial_instruments`: skip entries of other
trade symbols, skip entries whose reverse token lookup fails or returns a
falsy (zero) token, otherwise insert-or-update the bootstrap columns.
The `ON CONFLICT` update does not touch `source`. -/
def populateStep (ctx : Ctx) (trade_symbol : String) (expiry_date : ℚ)
    (acc : Store) (p : String × InstDetails) : Store :=
  if p.2.trade_symbol ≠ trade_symbol then acc
  else
    match findToken ctx.mapping p.1 with
    | none => acc
    | some tok =>
      if tok = 0 then acc
      else
        upsertRow acc p.1
          { Row.empty with
            trade_symbol := some trade_symbol
            strike_price := some p.2.strike
            option_type := some p.2.option_type
            instrument_token := some tok
            source := some "Initial"
            expiry_date := some expiry_date }
          (fun r =>
            { r with
              trade_symbol := some trade_symbol
              strike_price := some p.2.strike
              option_type := some p.2.option_type
              instrument_token := some tok
              expiry_date := some expiry_date })

/-- `populate_initial_instruments` (lines 599-663): one insert-or-update
per `kite_instrument_details` entry of the given `trade_symbol`.  `none`
models the `KeyError` raised (and re-raised after rollback, leaving the
table unchanged) when `nearest_expiry_dates` has no entry for
`trade_symbol`. -/
def populate_initial_instruments (ctx : Ctx) (trade_symbol : String)
    (st : Store) : Option Store :=
  match lookupA trade_symbol ctx.nearest_expiry with
  | none => none
  | some expiry_date =>
    some (ctx.details.foldl (populateStep ctx trade_symbol expiry_date) st)

/-- `get_adaptive_timeout` (lines 704-713) as a pure function of the
sampled queue size; timeouts in seconds as exact rationals. -/
def get_adaptive_timeout (queue_size : ℕ) : ℚ :=
  if queue_size > 1000 then 0.05
  else if queue_size > 500 then 0.1
  else if queue_size > 200 then 0.2
  else 0.3

/-- `get_adaptive_batch_size` (lines 716-739) as a pure function of the
sampled CPU percentage and queue size. -/
def get_adaptive_batch_size (cpu_percent : ℚ) (queue_size : ℕ) : ℕ :=
  if queue_size > 2000 then 150
  else if queue_size > 1000 then 100
  else if queue_size > 500 then 75
  else if queue_size > 200 then 50
  else if queue_size > 100 then 35
  else if cpu_percent > 80 then 25
  else if cpu_percent > 60 then 35
  else 50

/-- The emergency high-water check of `database_worker` (line 748). -/
def emergency_mode_triggered (queue_size : ℕ) : Bool :=
  decide (queue_size > 2000)

/-- `delay_stats` (line 40): running delay statistics.  `min_delay` starts
at `float('inf')`, modelled by the top element of `WithTop ℚ`. -/
structure DelayStats where
  count : ℕ
  total_delay : ℚ
  min_delay : WithTop ℚ
  max_delay : ℚ
deriving DecidableEq

/-- The consumer update of `delay_stats` for one envelope with a present
exchange timestamp (lines 899-903). -/
def updateDelayStats (s : DelayStats) (delay_seconds : ℚ) : DelayStats :=
  { count := s.count + 1,
    total_delay := s.total_delay + delay_seconds,
    min_delay := min s.min_delay (delay_seconds : WithTop ℚ),
    max_delay := max s.max_delay delay_seconds }

/-- The tick payload delivered by the feed.  A missing or zero
`instrument_token` is falsy in the source (`if not instrument_token`), so
`0` models both. -/
structure TickData where
  instrument_token : ℕ
  last_price : Option ℚ
  exchange_timestamp : Option ℚ
deriving DecidableEq

/-- A queue envelope built in `zerodha_on_ticks` (lines 1072-1079). -/
structure Envelope where
  source : String
  data : TickData
  queue_entry_time : ℚ
deriving DecidableEq

/-- The per-batch delay bookkeeping of `database_worker` (lines 894-908):
every tick whose envelope source is `"zerodha"` and whose exchange
timestamp is present updates `delay_stats`, before the token/price
validation. -/
def batchDelayStats (now : ℚ) (batch : List Envelope) (s : DelayStats) :
    DelayStats :=
  match batch with
  | [] => s
  | e :: t =>
    batchDelayStats now t
      (if e.source = "zerodha" then
        match e.data.exchange_timestamp with
        | some ts => updateDelayStats s (now - ts)
        | none => s
      else s)

/-- A classified spot-price update, as accumulated in `spot_ticks`. -/
structure SpotTick where
  spot_symbol : String
  price : ℚ
  ets : Option ℚ
  trade_symbol : String
deriving DecidableEq

/-- A classified contract (option) update, as accumulated in
`zerodha_ticks`. -/
structure ContractTick where
  kite_symbol : String
  price : ℚ
  tok : ℕ
  ets : Option ℚ
deriving DecidableEq

/-- The display symbol used for spot rows:
`"NIFTY 50" if trade_symbol == "NIFTY" else "SENSEX"`. -/
def spot_symbol_for (trade_symbol : String) : String :=
  if trade_symbol = "NIFTY" then "NIFTY 50" else "SENSEX"

/-- Tick classification shared by the emergency path (lines 767-802) and
the normal batch path (lines 882-940) of `database_worker`: envelopes of
other sources are ignored, a falsy token or missing price is skipped, the
spot-token match runs over the configured trade symbols in order (first
match wins), and only otherwise is the contract mapping consulted; an
unknown token is dropped. -/
def classifyEnv (ctx : Ctx) (e : Envelope) :
    Option (SpotTick ⊕ ContractTick) :=
  if e.source = "zerodha" then
    if e.data.instrument_token = 0 then none
    else
      match e.data.last_price with
      | none => none
      | some ltp =>
        match ctx.trade_symbols.find?
            (fun ts => decide
              (lookupA ts ctx.spot_tokens = some (some e.data.instrument_token))) with
        | some ts =>
          some (Sum.inl ⟨spot_symbol_for ts, ltp, e.data.exchange_timestamp, ts⟩)
        | none =>
          match lookupA e.data.instrument_token ctx.mapping with
          | some sym =>
            some (Sum.inr ⟨sym, ltp, e.data.instrument_token,
              e.data.exchange_timestamp⟩)
          | none => none
  else none

/-- Splitting a batch into `spot_ticks` and `zerodha_ticks`, preserving
arrival order. -/
def classifyTicks (ctx : Ctx) (batch : List Envelope) :
    List SpotTick × List ContractTick :=
  (batch.filterMap (fun e =>
      match classifyEnv ctx e with
      | some (Sum.inl s) => some s
      | _ => none),
   batch.filterMap (fun e =>
      match classifyEnv ctx e with
      | some (Sum.inr c) => some c
      | _ => none))

/-- Applying a classified batch to the store, as both worker paths do:
each spot tick through `upsert_spot_price` individually, then all contract
ticks through a single `upsert_price_bulk` call (skipped when there are
none, mirroring `if zerodha_ticks:`).  The second component counts the
bulk upsert calls issued. -/
def processBatchStore (ctx : Ctx) (now : ℚ) (batch : List Envelope)
    (st : Store) : Store × ℕ :=
  let spots := (classifyTicks ctx batch).1
  let contracts := (classifyTicks ctx batch).2
  let st1 := spots.foldl (fun acc sp =>
    upsert_spot_price ctx sp.spot_symbol (some sp.price) sp.trade_symbol
      "zerodha" sp.ets now acc) st
  if contracts.isEmpty then (st1, 0)
  else
    ((upsert_price_bulk ctx (contracts.map (fun c => c.kite_symbol))
        (contracts.map (fun c => some c.price))
        (contracts.map (fun c => c.ets)) "zerodha" true now st1).store, 1)

/-- The state a consumer thread sees at the top of its loop. -/
structure WorkerState where
  queue : List Envelope
  store : Store
  stats : DelayStats

/-- Observable outcome of one consumer-loop iteration: the remaining
queue, the store, the delay statistics, whether the emergency path ran,
how many blocking (`get(timeout=...)`) pops were issued, how many bulk
upsert calls were made, and whether the cycle committed. -/
structure IterResult where
  queue : List Envelope
  store : Store
  stats : DelayStats
  emergency : Bool
  blockingPops : ℕ
  bulkCalls : ℕ
  committed : Bool

/-- The normal (non-emergency) part of a `database_worker` iteration
(lines 847-1004): collect up to the adaptive batch size with blocking
adaptive-timeout pops (one final pop times out when the queue runs dry),
update the delay statistics, classify and apply the batch, commit.  An
empty batch just loops.  The straddle lookup block (lines 984-999) only
reads the store and computes local names, so it has no effect here. -/
def worker_normal_iter (ctx : Ctx) (now cpu_percent : ℚ) (w : WorkerState) :
    IterResult :=
  let qsize := w.queue.length
  let current_batch_size := get_adaptive_batch_size cpu_percent qsize
  let batch := w.queue.take current_batch_size
  let blocking := batch.length + (if qsize < current_batch_size then 1 else 0)
  if batch.isEmpty then
    ⟨w.queue, w.store, w.stats, false, blocking, 0, false⟩
  else
    let applied := processBatchStore ctx now batch w.store
    ⟨w.queue.drop current_batch_size, applied.1,
      batchDelayStats now batch w.stats, false, blocking, applied.2, true⟩

/-- One iteration of the `database_worker` consumer loop (lines 741-1004)
as a pure function of the sampled clock and CPU.  When the measured queue
depth exceeds the high-water mark, the emergency path drains up to 300
envelopes with non-blocking `get_nowait` pops, applies them (spot ticks
individually, contract ticks through one bulk call), commits and loops
again immediately; if the drain got nothing (impossible single-threaded,
kept for fidelity to `if emergency_batch:`) it falls through to normal
batching.  The emergency path performs no delay-statistics update. -/
def database_worker_iter (ctx : Ctx) (now cpu_percent : ℚ)
    (w : WorkerState) : IterResult :=
  let qsize := w.queue.length
  if emergency_mode_triggered qsize then
    let emergency_batch := w.queue.take 300
    if emergency_batch.isEmpty then worker_normal_iter ctx now cpu_percent w
    else
      let applied := processBatchStore ctx now emergency_batch w.store
      ⟨w.queue.drop 300, applied.1, w.stats, true, 0, applied.2, true⟩
  else worker_normal_iter ctx now cpu_percent w

/-- A call into the persistence sink, for stating invariants uniformly
over the three upsert entry points. -/
inductive SinkCall where
  | single (kite_symbol : String) (price : Option ℚ)
      (trade_symbol : Option String) (source : String) (tok : Option ℕ)
      (ets : Option ℚ) (now : ℚ)
  | bulk (kite_symbols : List String) (prices : List (Option ℚ))
      (etss : List (Option ℚ)) (source : String) (conn_provided : Bool)
      (now : ℚ)
  | spot (spot_symbol : String) (price : Option ℚ) (trade_symbol : String)
      (source : String) (ets : Option ℚ) (now : ℚ)

/-- The store transformation of a sink call. -/
def applyCall (ctx : Ctx) : SinkCall → Store → Store
  | SinkCall.single sym p ts src tok ets now, st =>
    upsert_price ctx sym p ts src tok ets now st
  | SinkCall.bulk syms ps etss src conn now, st =>
    (upsert_price_bulk ctx syms ps etss src conn now st).store
  | SinkCall.spot sym p ts src ets now, st =>
    upsert_spot_price ctx sym p ts src ets now st

/-- The symbols whose rows a sink call writes: the keyed symbol for the
single and spot calls; for the bulk call its symbol list when the source
is zerodha, and nothing otherwise (the non-zerodha bulk branch executes no
SQL). -/
def touchedSymbols : SinkCall → List String
  | SinkCall.single sym _ _ _ _ _ _ => [sym]
  | SinkCall.bulk syms _ _ src _ _ =>
    if str_lower src = "zerodha" then syms else []
  | SinkCall.spot sym _ _ _ _ _ => [sym]

/-- Argument-shape side condition for a sink call: the bulk call requires
the price and timestamp lists to align with the symbol list (a shorter
list would raise `IndexError` while building `bulk_data`, before any
commit). -/
def wellFormedCall : SinkCall → Prop
  | SinkCall.bulk syms ps etss _ _ _ =>
    ps.length = syms.length ∧ etss.length = syms.length
  | _ => True

/-- The derived best-price view a committed row must satisfy: whenever the
zerodha source price is non-null, the derived columns equal the source
columns. -/
def rowDerivedInv (r : Row) : Prop :=
  ∀ p, r.zerodha_price = some p →
    r.price = some p ∧ r.timestamp = r.zerodha_timestamp

/-- `MAX_RECONNECTS` (line 37). -/
def MAX_RECONNECTS : ℕ := 10

/-- Supervisor state relevant to reconnection: the global
`reconnect_attempts` counter (never reset anywhere in the module) and
whether `shutdown_event` is set. -/
structure SupState where
  reconnect_attempts : ℕ
  shutdown : Bool
deriving DecidableEq

/-- What `zerodha_on_error` does on one invocation. -/
inductive OnErrorOutcome where
  | normal_closure
  | stopped_max
  | reconnect_initiated
deriving DecidableEq

/-- `zerodha_on_error` (lines 1109-1134): normal-closure codes 1000/1001
return without retrying; once `reconnect_attempts >= MAX_RECONNECTS` the
handler prints and returns, initiating no further reconnect from the
callback; otherwise it increments the counter, sleeps and reconnects.
The handler never touches `shutdown_event`. -/
def zerodha_on_error (s : SupState) (code : ℤ) : SupState × OnErrorOutcome :=
  if code = 1000 ∨ code = 1001 then (s, OnErrorOutcome.normal_closure)
  else if s.reconnect_attempts ≥ MAX_RECONNECTS then
    (s, OnErrorOutcome.stopped_max)
  else
    ({ s with reconnect_attempts := s.reconnect_attempts + 1 },
      OnErrorOutcome.reconnect_initiated)

/-- Lines 1333-1347 of `main`: whenever `run_zerodha_websocket` returns
(its session ended for any reason) and `shutdown_event` is not set, the
loop sleeps and calls `run_zerodha_websocket` again, re-authenticating and
reconnecting the feed session, regardless of `reconnect_attempts`. -/
def main_loop_restarts_feed (s : SupState) : Bool := !s.shutdown

/-- A small concrete instrument directory, used to evaluate the theorems
on concrete inputs: one NIFTY option contract `SYMA` with token 7, the
NIFTY spot token 5, and a nearest expiry of 40. -/
def wCtx : Ctx :=
  ⟨[("SYMA", ⟨100, "CE", 20, "NIFTY"⟩)], [(7, "SYMA")], [("NIFTY", some 5)],
   [("NIFTY", 40)], ["NIFTY"]⟩

/-- A concrete spot-price envelope: instrument token 5 (the NIFTY spot
token of `wCtx`), price 101, exchange timestamp 3. -/
def wEnv : Envelope := ⟨"zerodha", ⟨5, some 101, some 3⟩, 0⟩

/-- The initial `delay_stats` value of line 40. -/
def wStats : DelayStats := ⟨0, 0, ⊤, 0⟩

/-- A concrete worker state whose queue holds 2001 envelopes, past the
emergency high-water mark. -/
def wState : WorkerState := ⟨List.replicate 2001 wEnv, emptyStore, wStats⟩

/-! ## Basic lemmas about the store primitives -/

theorem upsertRow_at_key (st : Store) (sym : String) (ins : Row)
    (upd : Row → Row) :
    upsertRow st sym ins upd sym =
      some (match st sym with | none => ins | some r => upd r) := by
  simp [upsertRow]

theorem upsertRow_other (st : Store) (sym : String) (ins : Row)
    (upd : Row → Row) (s : String) (h : s ≠ sym) :
    upsertRow st sym ins upd s = st s := by
  simp [upsertRow, h]

theorem deriveSym_at_key (st : Store) (sym : String) :
    deriveSym st sym sym = (st sym).map deriveRow := by
  simp [deriveSym]

theorem deriveSym_other (st : Store) (sym : String) (s : String)
    (h : s ≠ sym) : deriveSym st sym s = st s := by
  simp [deriveSym, h]

theorem deriveRow_establishes_inv (r : Row) : rowDerivedInv (deriveRow r) := by
  intro p hp
  by_cases h : r.zerodha_price.isSome
  · simp only [deriveRow, h, if_true] at hp ⊢
    exact ⟨hp, trivial⟩
  · simp [deriveRow, h] at hp ⊢
    rw [hp] at h
    simp at h

/-! ## C10: empty bulk upsert is a no-op -/

/-- C10: calling `upsert_price_bulk` with an empty symbol list is a
complete no-op: it returns before opening a connection, executing any SQL
or committing, and the store is unchanged for every symbol. -/
theorem upsert_price_bulk_empty_noop (ctx : Ctx) (prices : List (Option ℚ))
    (exchange_timestamps : List (Option ℚ)) (source : String)
    (conn_provided : Bool) (now : ℚ) (st : Store) :
    upsert_price_bulk ctx [] prices exchange_timestamps source conn_provided
      now st = ⟨st, false, 0, false⟩ := rfl

/-! ## C3: adaptive timeout / batch-size policy -/

/-- C3 counterexample: the claim as stated is false on the code in two
places.  Depth 1500 yields timeout 0.05s (the `>1000` tier), not 0.1s;
and the target batch size is not monotone in depth at fixed CPU: with CPU
at 50%, depth 100 yields batch size 50 (the low-CPU default) while depth
101 yields 35 (the `>100` tier). -/
theorem adaptive_policy_claim_false :
    get_adaptive_timeout 1500 ≠ 0.1 ∧
    (100 : ℕ) ≤ 101 ∧
    ¬ get_adaptive_batch_size 50 100 ≤ get_adaptive_batch_size 50 101 := by
  refine ⟨?_, by norm_num, ?_⟩ <;>
    simp only [get_adaptive_timeout, get_adaptive_batch_size] <;> norm_num

set_option maxHeartbeats 1600000 in
/-- C3 (amended): the adaptive pop timeout is monotonically non-increasing
in queue depth; the adaptive target batch size is monotonically
non-decreasing in depth at fixed CPU for depths above 100 (for shallower
queues the CPU-based size of up to 50 may exceed the 35 of the 101-200
tier); depth 1500 yields timeout 0.05s and target batch size 100; depth
2500 yields timeout 0.05s with emergency mode engaged at depth > 2000. -/
theorem adaptive_policy_monotone (cpu : ℚ) (d1 d2 : ℕ) (h12 : d1 ≤ d2) :
    get_adaptive_timeout d2 ≤ get_adaptive_timeout d1 ∧
    (100 < d1 → get_adaptive_batch_size cpu d1 ≤ get_adaptive_batch_size cpu d2) ∧
    get_adaptive_timeout 1500 = 0.05 ∧
    get_adaptive_batch_size cpu 1500 = 100 ∧
    get_adaptive_timeout 2500 = 0.05 ∧
    emergency_mode_triggered 2500 = true ∧
    emergency_mode_triggered 1500 = false := by
  refine ⟨?_, ?_, ?_, ?_, ?_, ?_, ?_⟩
  · unfold get_adaptive_timeout
    split_ifs <;> first | (exfalso; omega) | norm_num
  · intro h100
    unfold get_adaptive_batch_size
    split_ifs <;> omega
  · norm_num [get_adaptive_timeout]
  · norm_num [get_adaptive_batch_size]
  · norm_num [get_adaptive_timeout]
  · decide
  · decide

/-- Witness for C3 at concrete depths 150 ≤ 250 and CPU 50%. -/
theorem adaptive_policy_monotone_witness :
    get_adaptive_timeout 250 ≤ get_adaptive_timeout 150 ∧
    get_adaptive_batch_size 50 150 ≤ get_adaptive_batch_size 50 250 := by
  have h := adaptive_policy_monotone 50 150 250 (by norm_num)
  exact ⟨h.1, h.2.1 (by norm_num)⟩

/-! ## C2: reconnection budget and supervision -/

/-- C2 counterexample: with `reconnect_attempts` already at
`MAX_RECONNECTS` and a non-normal-closure error code (1006), the error
handler returns `stopped_max` but leaves the shutdown event unset, and the
main loop of `main` still restarts the feed session — so the process does
attempt further reconnection after the retry budget is exhausted, refuting
the permanent-halt part of the claim. -/
theorem reconnect_halt_claim_false :
    (zerodha_on_error ⟨MAX_RECONNECTS, false⟩ 1006).2 =
      OnErrorOutcome.stopped_max ∧
    (zerodha_on_error ⟨MAX_RECONNECTS, false⟩ 1006).1.shutdown = false ∧
    main_loop_restarts_feed (zerodha_on_error ⟨MAX_RECONNECTS, false⟩ 1006).1 =
      true := by
  decide

/-- C2 (amended): once `reconnect_attempts` has reached `MAX_RECONNECTS`
(10), a further non-normal-closure error callback initiates no reconnect
from within the handler and leaves the counter unchanged — but it does not
signal shutdown or any fatal status, and the outer loop of `main` restarts
the feed session whenever the websocket run returns with the shutdown
event unset, so the process as a whole keeps attempting reconnection. -/
theorem reconnect_stop_and_main_restart (s : SupState) (code : ℤ)
    (hmax : MAX_RECONNECTS ≤ s.reconnect_attempts)
    (hcode : ¬(code = 1000 ∨ code = 1001)) :
    zerodha_on_error s code = (s, OnErrorOutcome.stopped_max) ∧
    main_loop_restarts_feed s = !s.shutdown := by
  unfold zerodha_on_error main_loop_restarts_feed
  rw [if_neg hcode, if_pos hmax]
  exact ⟨rfl, rfl⟩

/-- Witness for C2 at the exhausted budget with error code 1006. -/
theorem reconnect_stop_and_main_restart_witness :
    zerodha_on_error ⟨10, false⟩ 1006 = (⟨10, false⟩, OnErrorOutcome.stopped_max) ∧
    main_loop_restarts_feed ⟨10, false⟩ = !false :=
  reconnect_stop_and_main_restart ⟨10, false⟩ 1006 (by decide) (by decide)

/-! ## C6: idempotence of the single upsert -/

/-- C6: applying `upsert_price` twice with the same envelope data leaves
the stored row (derived and source columns alike) equal to the state after
applying it once: the upsert is a pure overwrite of the source columns and
the derived columns are recomputed deterministically from them. -/
theorem upsert_price_idempotent (ctx : Ctx) (kite_symbol : String)
    (price : Option ℚ) (trade_symbol : Option String) (source : String)
    (tok : Option ℕ) (ets : Option ℚ) (now : ℚ) (st : Store) :
    upsert_price ctx kite_symbol price trade_symbol source tok ets now
      (upsert_price ctx kite_symbol price trade_symbol source tok ets now st) =
    upsert_price ctx kite_symbol price trade_symbol source tok ets now st := by
  funext s
  by_cases hs : s = kite_symbol
  · subst hs
    by_cases hsrc : str_lower source = "zerodha"
    · cases hst : st s <;> cases hp : price <;>
        simp [upsert_price, deriveSym, upsertRow, deriveRow, Row.empty, hsrc,
          hst, hp]
    · cases hst : st s with
      | none =>
        cases hp : price <;>
          simp [upsert_price, deriveSym, upsertRow, deriveRow, Row.empty, hsrc,
            hst, hp]
      | some r =>
        cases hz : r.zerodha_price <;>
          simp [upsert_price, deriveSym, upsertRow, deriveRow, Row.empty, hsrc,
            hst, hz]
  · by_cases hsrc : str_lower source = "zerodha" <;>
      simp [upsert_price, deriveSym, upsertRow, hs, hsrc]

/-! ## C5: last-applied envelope wins in the bulk upsert -/

theorem zerodha_lower : str_lower "zerodha" = "zerodha" := by decide

/-- C5: processing three envelopes for the same symbol (prices p1, p2, p3
with exchange timestamps t1, t2, t3, in arrival order within one bulk
call) leaves the stored row with the third envelope's price and exchange
timestamp — last-applied wins, not the maximum price.  The claim's
concrete scenario is the instance p1 = 100, p2 = 101, p3 = 99. -/
theorem upsert_price_bulk_last_wins (ctx : Ctx) (st : Store) (now : ℚ)
    (s : String) (p1 p2 p3 t1 t2 t3 : ℚ) (conn_provided : Bool) :
    ∃ row,
      (upsert_price_bulk ctx [s, s, s] [some p1, some p2, some p3]
          [some t1, some t2, some t3] "zerodha" conn_provided now st).store s =
        some row ∧
      row.price = some p3 ∧ row.timestamp = some t3 ∧
      row.zerodha_price = some p3 ∧ row.zerodha_timestamp = some t3 := by
  cases hst : st s <;>
    simp [upsert_price_bulk, bulkInsertStep, upsertRow, deriveSym, deriveRow,
      Row.empty, zerodha_lower, hst]

/-! ## C8: monotonic accumulation of the delay statistics -/

theorem updateDelayStats_le (s : DelayStats) (d : ℚ) (hd : 0 ≤ d) :
    s.count ≤ (updateDelayStats s d).count ∧
    s.total_delay ≤ (updateDelayStats s d).total_delay ∧
    (updateDelayStats s d).min_delay ≤ s.min_delay ∧
    s.max_delay ≤ (updateDelayStats s d).max_delay := by
  refine ⟨Nat.le_succ _, ?_, ?_, ?_⟩
  · simpa [updateDelayStats] using hd
  · exact min_le_left _ _
  · exact le_max_left _ _

theorem batchDelayStats_le (now : ℚ) (batch : List Envelope) (s : DelayStats)
    (hb : ∀ e ∈ batch, ∀ ts, e.data.exchange_timestamp = some ts → ts ≤ now) :
    s.count ≤ (batchDelayStats now batch s).count ∧
    s.total_delay ≤ (batchDelayStats now batch s).total_delay ∧
    (batchDelayStats now batch s).min_delay ≤ s.min_delay ∧
    s.max_delay ≤ (batchDelayStats now batch s).max_delay := by
  induction batch generalizing s with
  | nil => simp [batchDelayStats]
  | cons e t ih =>
    have hstep :
        s.count ≤ (if e.source = "zerodha" then
            match e.data.exchange_timestamp with
            | some ts => updateDelayStats s (now - ts)
            | none => s
          else s).count ∧
        s.total_delay ≤ (if e.source = "zerodha" then
            match e.data.exchange_timestamp with
            | some ts => updateDelayStats s (now - ts)
            | none => s
          else s).total_delay ∧
        (if e.source = "zerodha" then
            match e.data.exchange_timestamp with
            | some ts => updateDelayStats s (now - ts)
            | none => s
          else s).min_delay ≤ s.min_delay ∧
        s.max_delay ≤ (if e.source = "zerodha" then
            match e.data.exchange_timestamp with
            | some ts => updateDelayStats s (now - ts)
            | none => s
          else s).max_delay := by
      by_cases hz : e.source = "zerodha"
      · cases hts : e.data.exchange_timestamp with
        | none => simp [hz, hts]
        | some ts =>
          have h1 : ts ≤ now := hb e (by simp) ts hts
          have h2 := updateDelayStats_le s (now - ts) (by linarith)
          simpa [hz, hts] using h2
      · simp [hz]
    have htail := ih
      (if e.source = "zerodha" then
        match e.data.exchange_timestamp with
        | some ts => updateDelayStats s (now - ts)
        | none => s
      else s)
      (fun e' he' ts hts => hb e' (List.mem_cons_of_mem _ he') ts hts)
    rw [batchDelayStats]
    exact ⟨le_trans hstep.1 htail.1, le_trans hstep.2.1 htail.2.1,
      le_trans htail.2.2.1 hstep.2.2.1, le_trans hstep.2.2.2 htail.2.2.2⟩

theorem worker_iter_stats_le (ctx : Ctx) (now cpu : ℚ) (w : WorkerState)
    (hq : ∀ e ∈ w.queue, ∀ ts, e.data.exchange_timestamp = some ts → ts ≤ now) :
    w.stats.count ≤ (database_worker_iter ctx now cpu w).stats.count ∧
    w.stats.total_delay ≤ (database_worker_iter ctx now cpu w).stats.total_delay ∧
    (database_worker_iter ctx now cpu w).stats.min_delay ≤ w.stats.min_delay ∧
    w.stats.max_delay ≤ (database_worker_iter ctx now cpu w).stats.max_delay := by
  have hnormal :
      (worker_normal_iter ctx now cpu w).stats = w.stats ∨
      (worker_normal_iter ctx now cpu w).stats =
        batchDelayStats now (w.queue.take (get_adaptive_batch_size cpu w.queue.length)) w.stats := by
    unfold worker_normal_iter
    by_cases hb : (w.queue.take (get_adaptive_batch_size cpu w.queue.length)).isEmpty <;>
      simp [hb]
  have hbatch := batchDelayStats_le now
    (w.queue.take (get_adaptive_batch_size cpu w.queue.length)) w.stats
    (fun e he ts hts => hq e (List.take_subset _ _ he) ts hts)
  have hcase :
      (database_worker_iter ctx now cpu w).stats = w.stats ∨
      (database_worker_iter ctx now cpu w).stats =
        batchDelayStats now (w.queue.take (get_adaptive_batch_size cpu w.queue.length)) w.stats := by
    unfold database_worker_iter
    by_cases he : emergency_mode_triggered w.queue.length = true
    · by_cases hemp : (w.queue.take 300).isEmpty
      · simpa [he, hemp] using hnormal
      · simp [he, hemp]
    · simpa [he] using hnormal
  cases hcase with
  | inl h => simp [h]
  | inr h => rw [h]; exact hbatch

/-- C8: the `delay_stats` accumulator grows monotonically and is never
reset: a consumer update for an envelope with a present exchange timestamp
(no later than the processing time) increases `count` by exactly one,
never decreases `total_delay`, never increases `min_delay` and never
decreases `max_delay`; the per-batch bookkeeping only chains such updates;
and a full consumer-loop iteration (either path — the emergency path does
not touch the statistics at all) preserves these monotonicity relations
on the worker's statistics. -/
theorem delay_stats_monotonic (s : DelayStats) (d : ℚ) (ctx : Ctx)
    (now cpu : ℚ) (batch : List Envelope) (w : WorkerState)
    (hd : 0 ≤ d)
    (hb : ∀ e ∈ batch, ∀ ts, e.data.exchange_timestamp = some ts → ts ≤ now)
    (hq : ∀ e ∈ w.queue, ∀ ts, e.data.exchange_timestamp = some ts → ts ≤ now) :
    (updateDelayStats s d).count = s.count + 1 ∧
    s.total_delay ≤ (updateDelayStats s d).total_delay ∧
    (updateDelayStats s d).min_delay ≤ s.min_delay ∧
    s.max_delay ≤ (updateDelayStats s d).max_delay ∧
    s.count ≤ (batchDelayStats now batch s).count ∧
    s.total_delay ≤ (batchDelayStats now batch s).total_delay ∧
    (batchDelayStats now batch s).min_delay ≤ s.min_delay ∧
    s.max_delay ≤ (batchDelayStats now batch s).max_delay ∧
    w.stats.count ≤ (database_worker_iter ctx now cpu w).stats.count ∧
    w.stats.total_delay ≤ (database_worker_iter ctx now cpu w).stats.total_delay ∧
    (database_worker_iter ctx now cpu w).stats.min_delay ≤ w.stats.min_delay ∧
    w.stats.max_delay ≤ (database_worker_iter ctx now cpu w).stats.max_delay := by
  have h1 := updateDelayStats_le s d hd
  have h2 := batchDelayStats_le now batch s hb
  have h3 := worker_iter_stats_le ctx now cpu w hq
  exact ⟨rfl, h1.2.1, h1.2.2.1, h1.2.2.2, h2.1, h2.2.1, h2.2.2.1, h2.2.2.2,
    h3.1, h3.2.1, h3.2.2.1, h3.2.2.2⟩

/-- Witness for C8 on a concrete update, batch and worker state. -/
theorem delay_stats_monotonic_witness :
    (updateDelayStats wStats 1).count = wStats.count + 1 ∧
    wStats.total_delay ≤ (updateDelayStats wStats 1).total_delay ∧
    (updateDelayStats wStats 1).min_delay ≤ wStats.min_delay ∧
    wStats.max_delay ≤ (updateDelayStats wStats 1).max_delay ∧
    wStats.count ≤ (batchDelayStats 10 [wEnv] wStats).count ∧
    wStats.total_delay ≤ (batchDelayStats 10 [wEnv] wStats).total_delay ∧
    (batchDelayStats 10 [wEnv] wStats).min_delay ≤ wStats.min_delay ∧
    wStats.max_delay ≤ (batchDelayStats 10 [wEnv] wStats).max_delay ∧
    wState.stats.count ≤ (database_worker_iter wCtx 10 50 wState).stats.count ∧
    wState.stats.total_delay ≤
      (database_worker_iter wCtx 10 50 wState).stats.total_delay ∧
    (database_worker_iter wCtx 10 50 wState).stats.min_delay ≤
      wState.stats.min_delay ∧
    wState.stats.max_delay ≤
      (database_worker_iter wCtx 10 50 wState).stats.max_delay := by
  have hb : ∀ e ∈ [wEnv], ∀ ts : ℚ,
      e.data.exchange_timestamp = some ts → ts ≤ 10 := by
    intro e he ts hts
    rw [List.mem_singleton] at he
    subst he
    simp [wEnv] at hts
    rw [← hts]
    norm_num
  have hq : ∀ e ∈ wState.queue, ∀ ts : ℚ,
      e.data.exchange_timestamp = some ts → ts ≤ 10 := by
    intro e he ts hts
    have he2 : e = wEnv :=
      List.eq_of_mem_replicate (show e ∈ List.replicate 2001 wEnv from he)
    subst he2
    simp [wEnv] at hts
    rw [← hts]
    norm_num
  exact delay_stats_monotonic wStats 1 wCtx 10 50 [wEnv] wState (by norm_num) hb hq

/-! ## C1: emergency mode of the consumer loop -/

theorem processBatchStore_bulkCalls (ctx : Ctx) (now : ℚ)
    (batch : List Envelope) (st : Store) :
    (processBatchStore ctx now batch st).2 =
      if (classifyTicks ctx batch).2.isEmpty then 0 else 1 := by
  unfold processBatchStore
  by_cases hc : (classifyTicks ctx batch).2.isEmpty <;> simp [hc]

/-- C1: in every consumer-loop iteration whose measured queue depth
exceeds 2000, the consumer takes the emergency path: it drains exactly
300 envelopes using only non-blocking pops (zero blocking adaptive-timeout
pops), applies the batch with spot envelopes through the spot path and all
resolved contract envelopes through one bulk upsert call (none when no
contract resolves), commits, leaves the delay statistics untouched and
skips the normal adaptive batching for that cycle. -/
theorem database_worker_emergency_mode (ctx : Ctx) (now cpu : ℚ)
    (w : WorkerState) (h : 2000 < w.queue.length) :
    (database_worker_iter ctx now cpu w).emergency = true ∧
    (database_worker_iter ctx now cpu w).blockingPops = 0 ∧
    (database_worker_iter ctx now cpu w).committed = true ∧
    (database_worker_iter ctx now cpu w).stats = w.stats ∧
    (database_worker_iter ctx now cpu w).queue = w.queue.drop 300 ∧
    (database_worker_iter ctx now cpu w).store =
      (processBatchStore ctx now (w.queue.take 300) w.store).1 ∧
    (database_worker_iter ctx now cpu w).bulkCalls =
      (if (classifyTicks ctx (w.queue.take 300)).2.isEmpty then 0 else 1) := by
  have htrig : emergency_mode_triggered w.queue.length = true := by
    simp only [emergency_mode_triggered, decide_eq_true_eq]
    omega
  have hlen : (w.queue.take 300).length = 300 := by
    rw [List.length_take]
    omega
  have hne : (w.queue.take 300).isEmpty = false := by
    cases hq : w.queue.take 300 with
    | nil => rw [hq] at hlen; simp at hlen
    | cons a t => simp [List.isEmpty]
  simp only [database_worker_iter, htrig, hne, if_true, Bool.false_eq_true,
    if_false, ite_true, ite_false]
  refine ⟨?_, ?_, ?_, ?_, ?_, ?_, ?_⟩ <;>
    first | trivial | rw [processBatchStore_bulkCalls]

/-- Witness for C1 at a queue of 2001 concrete envelopes. -/
theorem database_worker_emergency_mode_witness :
    (database_worker_iter wCtx 10 50 wState).emergency = true ∧
    (database_worker_iter wCtx 10 50 wState).blockingPops = 0 ∧
    (database_worker_iter wCtx 10 50 wState).committed = true ∧
    (database_worker_iter wCtx 10 50 wState).stats = wState.stats ∧
    (database_worker_iter wCtx 10 50 wState).queue = wState.queue.drop 300 ∧
    (database_worker_iter wCtx 10 50 wState).store =
      (processBatchStore wCtx 10 (wState.queue.take 300) wState.store).1 ∧
    (database_worker_iter wCtx 10 50 wState).bulkCalls =
      (if (classifyTicks wCtx (wState.queue.take 300)).2.isEmpty then 0
       else 1) :=
  database_worker_emergency_mode wCtx 10 50 wState
    (by show 2000 < (List.replicate 2001 wEnv).length
        rw [List.length_replicate]
        norm_num)

/-! ## C7: spot envelopes take the spot path -/

theorem upsert_spot_price_row (ctx : Ctx) (sym : String) (p : Option ℚ)
    (ts src : String) (ets : Option ℚ) (now : ℚ) (st : Store) :
    ∃ row, upsert_spot_price ctx sym p ts src ets now st sym = some row ∧
      row.trade_symbol = some ts ∧ row.source = some src := by
  unfold upsert_spot_price
  cases hst : st sym <;> cases hp : p <;>
    simp [deriveSym, upsertRow, deriveRow, Row.empty, hst, hp]

/-- C7: an envelope whose instrument token matches one of the tracked
spot instrument tokens is classified as a spot tick, never as a contract
tick; with that single envelope in the batch the generic contract bulk
path is not invoked at all, and the row written by the spot path carries
the underlying (`trade_symbol`) and `source` columns populated. -/
theorem spot_tick_routed_to_spot_path (ctx : Ctx) (now : ℚ) (st : Store)
    (e : Envelope) (p : ℚ)
    (hsrc : e.source = "zerodha")
    (htok : e.data.instrument_token ≠ 0)
    (hltp : e.data.last_price = some p)
    (hmatch : ∃ ts ∈ ctx.trade_symbols,
        lookupA ts ctx.spot_tokens = some (some e.data.instrument_token)) :
    (classifyTicks ctx [e]).2 = [] ∧
    (processBatchStore ctx now [e] st).2 = 0 ∧
    ∃ ts row, ts ∈ ctx.trade_symbols ∧
      lookupA ts ctx.spot_tokens = some (some e.data.instrument_token) ∧
      (processBatchStore ctx now [e] st).1 (spot_symbol_for ts) = some row ∧
      row.trade_symbol = some ts ∧ row.source = some "zerodha" := by
  obtain ⟨ts0, hts0mem, hts0⟩ := hmatch
  have hfindSome : (ctx.trade_symbols.find? (fun ts => decide
      (lookupA ts ctx.spot_tokens = some (some e.data.instrument_token)))).isSome :=
    List.find?_isSome.mpr ⟨ts0, hts0mem, by simpa using hts0⟩
  obtain ⟨ts, hfind⟩ := Option.isSome_iff_exists.mp hfindSome
  have htsmem : ts ∈ ctx.trade_symbols := List.mem_of_find?_eq_some hfind
  have htslook : lookupA ts ctx.spot_tokens =
      some (some e.data.instrument_token) := by
    simpa using List.find?_some hfind
  have hclass : classifyEnv ctx e =
      some (Sum.inl ⟨spot_symbol_for ts, p, e.data.exchange_timestamp, ts⟩) := by
    simp only [classifyEnv, if_pos hsrc, if_neg htok, hltp, hfind]
  have h2 : classifyTicks ctx [e] =
      ([⟨spot_symbol_for ts, p, e.data.exchange_timestamp, ts⟩], []) := by
    simp [classifyTicks, hclass]
  have h3 : processBatchStore ctx now [e] st =
      (upsert_spot_price ctx (spot_symbol_for ts) (some p) ts "zerodha"
        e.data.exchange_timestamp now st, 0) := by
    simp [processBatchStore, h2]
  obtain ⟨row, hrow, hrts, hrsrc⟩ :=
    upsert_spot_price_row ctx (spot_symbol_for ts) (some p) ts "zerodha"
      e.data.exchange_timestamp now st
  refine ⟨by rw [h2], by rw [h3], ts, row, htsmem, htslook, ?_, hrts, hrsrc⟩
  rw [h3]
  exact hrow

/-! ## C9: the derived best-price invariant after each sink call -/

theorem upsert_then_derive_inv (st : Store) (sym : String) (ins : Row)
    (upd : Row → Row) :
    ∃ row, deriveSym (upsertRow st sym ins upd) sym sym = some row ∧
      rowDerivedInv row := by
  rw [deriveSym_at_key, upsertRow_at_key]
  exact ⟨_, rfl, deriveRow_establishes_inv _⟩

theorem foldInsert_isSome (bd : List (String × Option ℚ × ℚ × Option ℚ))
    (st : Store) (sym : String)
    (h : sym ∈ bd.map Prod.fst ∨ (st sym).isSome) :
    ((bd.foldl bulkInsertStep st) sym).isSome := by
  induction bd generalizing st with
  | nil =>
    rw [List.foldl_nil]
    exact h.resolve_left (by simp)
  | cons q t ih =>
    rw [List.foldl_cons]
    apply ih
    rcases h with hmem | hsome
    · rw [List.map_cons, List.mem_cons] at hmem
      rcases hmem with hq | ht
      · right
        simp [bulkInsertStep, upsertRow, hq]
      · left
        exact ht
    · right
      by_cases hq : sym = q.1
      · simp [bulkInsertStep, upsertRow, hq]
      · simpa [bulkInsertStep, upsertRow, hq] using hsome

theorem foldDerive_preserves (l : List String) (st : Store) (sym : String)
    (r : Row) (hr : st sym = some r) (hinv : rowDerivedInv r) :
    ∃ r2, (l.foldl deriveSym st) sym = some r2 ∧ rowDerivedInv r2 := by
  induction l generalizing st r with
  | nil => exact ⟨r, hr, hinv⟩
  | cons a t ih =>
    rw [List.foldl_cons]
    by_cases ha : sym = a
    · subst ha
      exact ih (deriveSym st sym) (deriveRow r)
        (by rw [deriveSym_at_key, hr]; rfl)
        (deriveRow_establishes_inv r)
    · exact ih (deriveSym st a) r (by rw [deriveSym_other _ _ _ ha]; exact hr) hinv

theorem foldDerive_inv (l : List String) (st : Store) (sym : String)
    (hs : ((st sym).isSome)) (hm : sym ∈ l) :
    ∃ r2, (l.foldl deriveSym st) sym = some r2 ∧ rowDerivedInv r2 := by
  induction l generalizing st with
  | nil => cases hm
  | cons a t ih =>
    rw [List.foldl_cons]
    by_cases ha : sym = a
    · subst ha
      obtain ⟨r, hr⟩ := Option.isSome_iff_exists.mp hs
      exact foldDerive_preserves t (deriveSym st sym) sym (deriveRow r)
        (by rw [deriveSym_at_key, hr]; rfl)
        (deriveRow_establishes_inv r)
    · rcases List.mem_cons.mp hm with h1 | h2
      · exact absurd h1 ha
      · exact ih (deriveSym st a)
          (by rw [deriveSym_other _ _ _ ha]; exact hs) h2

/-- C9: after every committed sink call (`upsert_price`,
`upsert_price_bulk` or `upsert_spot_price`), every symbol the call touched
has a row satisfying the derived best-price invariant: whenever
`zerodha_price` is non-null, `price = zerodha_price` and
`timestamp = zerodha_timestamp`. -/
theorem sink_calls_establish_derived_inv (ctx : Ctx) (c : SinkCall)
    (st : Store) (sym : String) (hw : wellFormedCall c)
    (h : sym ∈ touchedSymbols c) :
    ∃ row, applyCall ctx c st sym = some row ∧ rowDerivedInv row := by
  cases c with
  | single sym' p ts src tok ets now =>
    have hs : sym = sym' := by simpa [touchedSymbols] using h
    subst hs
    simp only [applyCall, upsert_price]
    split
    · exact upsert_then_derive_inv _ _ _ _
    · exact upsert_then_derive_inv _ _ _ _
  | spot sym' p ts src ets now =>
    have hs : sym = sym' := by simpa [touchedSymbols] using h
    subst hs
    simp only [applyCall, upsert_spot_price]
    exact upsert_then_derive_inv _ _ _ _
  | bulk syms ps etss src conn now =>
    by_cases hsrc : str_lower src = "zerodha"
    · have hmem : sym ∈ syms := by simpa [touchedSymbols, hsrc] using h
      have hne : syms.isEmpty = false := by
        cases syms with
        | nil => cases hmem
        | cons a t => simp [List.isEmpty]
      obtain ⟨hp, he⟩ := hw
      simp only [applyCall, upsert_price_bulk, hne, Bool.false_eq_true,
        if_false, hsrc, if_true]
      have hlen : syms.length ≤
          (ps.zip ((etss.map (fun e => e.getD now)).zip
            (syms.map (fun sym2 =>
              (lookupA sym2 ctx.details).map (fun d => d.expiry))))).length := by
        simp [List.length_zip, hp, he]
      have hfst : (syms.zip (ps.zip ((etss.map (fun e => e.getD now)).zip
          (syms.map (fun sym2 =>
            (lookupA sym2 ctx.details).map (fun d => d.expiry)))))).map
            Prod.fst = syms :=
        List.map_fst_zip _ _ hlen
      apply foldDerive_inv _ _ _ _ hmem
      apply foldInsert_isSome
      left
      rw [hfst]
      exact hmem
    · simp [touchedSymbols, hsrc] at h

/-- Witness for C9 on a concrete spot call against the empty store. -/
theorem sink_calls_establish_derived_inv_witness :
    ∃ row, applyCall wCtx
        (SinkCall.spot "NIFTY 50" (some 101) "NIFTY" "zerodha" (some 3) 10)
        emptyStore "NIFTY 50" = some row ∧ rowDerivedInv row :=
  sink_calls_establish_derived_inv wCtx
    (SinkCall.spot "NIFTY 50" (some 101) "NIFTY" "zerodha" (some 3) 10)
    emptyStore "NIFTY 50" trivial (by decide)

/-- Witness for C7 on the concrete spot envelope `wEnv` against the empty
store. -/
theorem spot_tick_routed_to_spot_path_witness :
    (classifyTicks wCtx [wEnv]).2 = [] ∧
    (processBatchStore wCtx 10 [wEnv] emptyStore).2 = 0 ∧
    ∃ ts row, ts ∈ wCtx.trade_symbols ∧
      lookupA ts wCtx.spot_tokens = some (some wEnv.data.instrument_token) ∧
      (processBatchStore wCtx 10 [wEnv] emptyStore).1 (spot_symbol_for ts) =
        some row ∧
      row.trade_symbol = some ts ∧ row.source = some "zerodha" :=
  spot_tick_routed_to_spot_path wCtx 10 emptyStore wEnv 101 rfl (by decide)
    rfl ⟨"NIFTY", by decide, by decide⟩

/-! ## C4: the bootstrap populator seeds one row per directory entry -/

theorem populateStep_other (ctx : Ctx) (ts : String) (e : ℚ) (acc : Store)
    (p : String × InstDetails) (s : String) (h : p.1 ≠ s) :
    populateStep ctx ts e acc p s = acc s := by
  unfold populateStep
  by_cases h1 : p.2.trade_symbol ≠ ts
  · rw [if_pos h1]
  · rw [if_neg h1]
    cases hft : findToken ctx.mapping p.1 with
    | none => rfl
    | some tok =>
      dsimp only
      by_cases h0 : tok = 0
      · rw [if_pos h0]
      · rw [if_neg h0]
        exact upsertRow_other _ _ _ _ _ (Ne.symm h)

theorem populateFold_not_mem (ctx : Ctx) (ts : String) (e : ℚ)
    (l : List (String × InstDetails)) (st : Store) (s : String) :
    s ∉ l.map Prod.fst →
    (l.foldl (populateStep ctx ts e) st) s = st s := by
  induction l generalizing st with
  | nil => intro _; rfl
  | cons p t ih =>
    intro h
    have h1 : p.1 ≠ s := by
      intro hps
      exact h (by rw [List.map_cons, hps]; exact List.mem_cons_self _ _)
    have h2 : s ∉ t.map Prod.fst := by
      intro hm
      exact h (by rw [List.map_cons]; exact List.mem_cons_of_mem _ hm)
    rw [List.foldl_cons, ih _ h2, populateStep_other _ _ _ _ _ _ h1]

theorem populateFold_sets (ctx : Ctx) (ts : String) (e : ℚ)
    (l : List (String × InstDetails)) (st : Store) (sym : String)
    (d : InstDetails) (tok : ℕ) :
    (l.map Prod.fst).Nodup → (sym, d) ∈ l → d.trade_symbol = ts →
    findToken ctx.mapping sym = some tok → tok ≠ 0 → st sym = none →
    (l.foldl (populateStep ctx ts e) st) sym =
      some { price := none
             timestamp := none
             trade_symbol := some ts
             strike_price := some d.strike
             option_type := some d.option_type
             source := some "Initial"
             zerodha_price := none
             zerodha_timestamp := none
             instrument_token := some tok
             expiry_date := some e } := by
  induction l generalizing st with
  | nil => intro _ hmem; cases hmem
  | cons p t ih =>
    intro hnd hmem hts htok h0 hfresh
    rw [List.map_cons, List.nodup_cons] at hnd
    rw [List.foldl_cons]
    rcases List.mem_cons.mp hmem with heq | hmem2
    · obtain ⟨hp1, hp2⟩ : p.1 = sym ∧ p.2 = d := by
        rw [← heq]; exact ⟨rfl, rfl⟩
      have hstep : populateStep ctx ts e st p sym = some
          { price := none
            timestamp := none
            trade_symbol := some ts
            strike_price := some d.strike
            option_type := some d.option_type
            source := some "Initial"
            zerodha_price := none
            zerodha_timestamp := none
            instrument_token := some tok
            expiry_date := some e } := by
        simp only [populateStep, hp1, hp2, hts, ne_eq, not_true_eq_false,
          if_false, htok, h0, upsertRow_at_key, hfresh]
        rfl
      have hnmem : sym ∉ t.map Prod.fst := by
        rw [← hp1]
        exact hnd.1
      rw [populateFold_not_mem _ _ _ _ _ _ hnmem, hstep]
    · have hp1 : p.1 ≠ sym := by
        intro hps
        exact hnd.1 (hps ▸ List.mem_map_of_mem Prod.fst hmem2)
      apply ih _ hnd.2 hmem2 hts htok h0
      rw [populateStep_other _ _ _ _ _ _ hp1]
      exact hfresh

/-- C4: after `populate_initial_instruments(table_name, trade_symbol)`
succeeds on a freshly created (empty) price table, a row exists for every
`kite_instrument_details` entry belonging to `trade_symbol` (each such
entry having a non-falsy token under the reverse mapping, as the parser
guarantees for every directory it builds), carrying the trade symbol,
strike, option type, instrument token and the nearest expiry date, with
`source = "Initial"` and a null `price` (and `timestamp`). -/
theorem populate_initial_seeds_rows (ctx : Ctx) (ts : String) (sym : String)
    (d : InstDetails) (e : ℚ) (tok : ℕ)
    (hnd : (ctx.details.map Prod.fst).Nodup)
    (hmem : (sym, d) ∈ ctx.details)
    (hts : d.trade_symbol = ts)
    (hexp : lookupA ts ctx.nearest_expiry = some e)
    (htok : findToken ctx.mapping sym = some tok)
    (h0 : tok ≠ 0) :
    ∃ st2, populate_initial_instruments ctx ts emptyStore = some st2 ∧
      st2 sym = some { price := none
                       timestamp := none
                       trade_symbol := some ts
                       strike_price := some d.strike
                       option_type := some d.option_type
                       source := some "Initial"
                       zerodha_price := none
                       zerodha_timestamp := none
                       instrument_token := some tok
                       expiry_date := some e } := by
  unfold populate_initial_instruments
  rw [hexp]
  exact ⟨_, rfl,
    populateFold_sets ctx ts e ctx.details emptyStore sym d tok hnd hmem hts
      htok h0 rfl⟩

/-- Witness for C4 on the concrete directory `wCtx`. -/
theorem populate_initial_seeds_rows_witness :
    ∃ st2, populate_initial_instruments wCtx "NIFTY" emptyStore = some st2 ∧
      st2 "SYMA" = some { price := none
                          timestamp := none
                          trade_symbol := some "NIFTY"
                          strike_price := some 100
                          option_type := some "CE"
                          source := some "Initial"
                          zerodha_price := none
                          zerodha_timestamp := none
                          instrument_token := some 7
                          expiry_date := some 40 } :=
  populate_initial_seeds_rows wCtx "NIFTY" "SYMA" ⟨100, "CE", 20, "NIFTY"⟩
    40 7 (by decide) (by decide) rfl (by decide) (by decide) (by decide)
